import Mathlib

/-
Verification of the chatroom-rs specification against the repository code.

The repository ships the TypeScript UI of both client and server
(chatroom-client/src and the server shell App) together with the Cargo
manifest of the Rust protocol core `chatroom-core`.  The TypeScript
handlers are embedded directly; the protocol-core components whose Rust
sources are not in the repository snapshot (nonce/replay discipline,
session registry, heartbeat reaper, user store, chatroom state) are
modelled from the specification text, as marked on each definition.
-/

namespace Chatroom

/-- A roster entry of the client's user map (ChatPage.tsx, `interface User`). -/
structure RosterUser where
  name : String
  is_online : Bool
  new_msg_count : Nat
  deriving Repr, DecidableEq

/-- Kind of one chat-history entry delivered by `get_chats`
(ChatPage.tsx, `type ChatData`: "Online", "Offline" or a `Message`). -/
inductive ChatEntryKind
  | online
  | offline
  | message (text : String)
  deriving Repr, DecidableEq

/-- One chat-history entry: raw timestamp string, speaker, entry kind. -/
structure ChatData where
  time : String
  user : String
  entry : ChatEntryKind
  deriving Repr, DecidableEq

/-- JS `Map.get`: the value stored under key `k`, if any. -/
def mapGet (m : List (String × RosterUser)) (k : String) : Option RosterUser :=
  match m with
  | [] => none
  | (k', v) :: rest => if k' = k then some v else mapGet rest k

/-- JS `Map.set`: replace the value under an existing key in place,
append a new key at the end (JS Maps preserve insertion order). -/
def mapSet (m : List (String × RosterUser)) (k : String) (v : RosterUser) :
    List (String × RosterUser) :=
  match m with
  | [] => [(k, v)]
  | (k', v') :: rest => if k' = k then (k, v) :: rest else (k', v') :: mapSet rest k v

/-- The slice of ChatPage React state the embedded handlers read and write. -/
structure ClientState where
  users : List (String × RosterUser)
  online_list : List String
  offline_list : List String
  chat_history : List ChatData
  public_chat_count : Nat
  current_chat : Option String
  message : String
  deriving Repr, DecidableEq

/-- ChatPage.tsx `bump_user_online`: drop `name` from the offline display
list and move it to the head of the online display list. -/
def bump_user_online (name : String) (st : ClientState) : ClientState :=
  { st with
    offline_list := st.offline_list.filter (fun n => n != name)
    online_list := name :: st.online_list.filter (fun n => n != name) }

/-- ChatPage.tsx `move_user_online`: drop `name` from the offline display
list and append it to the online display list. -/
def move_user_online (name : String) (st : ClientState) : ClientState :=
  { st with
    offline_list := st.offline_list.filter (fun n => n != name)
    online_list := st.online_list.filter (fun n => n != name) ++ [name] }

/-- ChatPage.tsx `move_user_offline`: drop `name` from the online display
list and append it to the offline display list. -/
def move_user_offline (name : String) (st : ClientState) : ClientState :=
  { st with
    online_list := st.online_list.filter (fun n => n != name)
    offline_list := st.offline_list.filter (fun n => n != name) ++ [name] }

/-- ChatPage.tsx `set_online_state`: update the roster entry's flag when
the user is known; otherwise insert a fresh entry whose `is_online` field
is the literal `true` (regardless of the event kind), then move the user
between the display lists according to the event kind. -/
def set_online_state (name : String) (is_online : Bool) (st : ClientState) :
    ClientState :=
  let st1 :=
    match mapGet st.users name with
    | some u => { st with users := mapSet st.users name { u with is_online := is_online } }
    | none => { st with users := mapSet st.users name ⟨name, true, 0⟩ }
  if is_online then move_user_online name st1 else move_user_offline name st1

/-- ChatPage.tsx "new-msg" listener: a payload equal to the selected chat
refreshes the history (`fetched` is what `get_chats` returns); a null
payload bumps the public unread counter; a payload naming a known roster
user bumps that user's unread counter and calls `bump_user_online`. -/
def on_new_msg (payload : Option String) (fetched : List ChatData)
    (st : ClientState) : ClientState :=
  if payload = st.current_chat then
    { st with chat_history := fetched }
  else
    match payload with
    | none => { st with public_chat_count := st.public_chat_count + 1 }
    | some chat =>
      match mapGet st.users chat with
      | some u =>
        bump_user_online chat
          { st with users := mapSet st.users chat { u with new_msg_count := u.new_msg_count + 1 } }
      | none => st

/-- JS regular-expression class `\s` (ECMAScript WhiteSpace plus
LineTerminator characters). -/
def js_space (c : Char) : Bool :=
  c == ' ' || c == '\t' || c == '\n' || c == '\r' ||
  c == '\u000B' || c == '\u000C' || c == ' ' || c == ' ' ||
  (0x2000 ≤ c.toNat && c.toNat ≤ 0x200A) ||
  c == ' ' || c == ' ' || c == ' ' || c == ' ' ||
  c == '　' || c == '﻿'

/-- JS `/^\s*$/.test(s)`: every character of `s` is whitespace
(true for the empty string). -/
def is_blank (s : String) : Bool :=
  s.data.all js_space

/-- Observable side effects of a ChatPage handler run. -/
inductive Effect
  | backend_say (recipient : Option String) (msg : String)
  | fetch_history (chat : Option String)
  | snackbar (text : String)
  | console_error
  deriving Repr, DecidableEq

/-- Outcome the backend returns for the `say` invocation: success, a
structured error whose `msg` field is a string, or any other error. -/
inductive SayResult
  | ok
  | err_msg (msg : String)
  | err_other
  deriving Repr, DecidableEq

/-- ChatPage.tsx `say`: a blank message is refused with a snackbar and
nothing else happens; otherwise `say` is invoked on the backend and on
success the history is refetched and the input box is cleared. -/
def say (st : ClientState) (res : SayResult) (fetched : List ChatData) :
    ClientState × List Effect :=
  if is_blank st.message then
    (st, [Effect.snackbar "不能发送空白消息"])
  else
    match res with
    | .ok =>
      ({ st with chat_history := fetched, message := "" },
       [Effect.backend_say st.current_chat st.message,
        Effect.fetch_history st.current_chat])
    | .err_msg m =>
      (st,
       if m = "user is offline" then
         [Effect.backend_say st.current_chat st.message, Effect.snackbar "用户不在线"]
       else
         [Effect.backend_say st.current_chat st.message, Effect.console_error])
    | .err_other =>
      (st, [Effect.backend_say st.current_chat st.message, Effect.console_error])

/-! ## Server shell (unnamed/part_000, `App`) -/

/-- A JavaScript value as it is passed to `invoke("set_settings", ...)`:
a finite number, `NaN`, or a string. -/
inductive JSVal
  | num (n : Int)
  | nan
  | str (s : String)
  deriving Repr, DecidableEq

/-- Accumulate leading decimal digits; `none` when no digit was read. -/
def parse_digits (cs : List Char) (acc : Nat) (seen : Bool) : Option Nat :=
  match cs with
  | [] => if seen then some acc else none
  | c :: rest =>
    if c.isDigit then parse_digits rest (acc * 10 + (c.toNat - 48)) true
    else if seen then some acc else none

/-- JS `parseInt(s)` (radix 10): skip leading whitespace, read an optional
sign and then leading digits; `NaN` when no digit is found. -/
def parseIntJS (s : String) : JSVal :=
  match s.data.dropWhile js_space with
  | '-' :: rest =>
    match parse_digits rest 0 false with
    | some n => JSVal.num (-(n : Int))
    | none => JSVal.nan
  | '+' :: rest =>
    match parse_digits rest 0 false with
    | some n => JSVal.num (n : Int)
    | none => JSVal.nan
  | cs =>
    match parse_digits cs 0 false with
    | some n => JSVal.num (n : Int)
    | none => JSVal.nan

/-- Arguments the server shell passes to `invoke("set_settings", ...)`. -/
structure ServerSettings where
  heartbeatInterval : JSVal
  serverAddr : String
  deriving Repr, DecidableEq

/-- Server shell start-button handler (unnamed/part_000 lines 129-155):
the arguments delivered to `set_settings` as a function of the two text
fields.  An empty address field falls back to "0.0.0.0:0"; an empty
heartbeat field falls back to the string literal "60000" while a
non-empty one is passed through `parseInt`. -/
def start_server_settings (ip_addr heartbeat_time : String) : ServerSettings :=
  { heartbeatInterval :=
      if heartbeat_time = "" then JSVal.str "60000" else parseIntJS heartbeat_time
    serverAddr := if ip_addr = "" then "0.0.0.0:0" else ip_addr }

/-! ## Crypto envelope nonce discipline (modelled from the spec)

The Rust sources of `chatroom-core` are not in the repository snapshot
(only its Cargo manifest is), so the receive-side nonce discipline is
modelled from spec §4.2, the §3 session invariants and the glossary:
a per-direction replay window of 64 counters anchored at
`recv_nonce_ceiling`; a frame below the anchor is dropped as a replay, a
frame already accepted is dropped, an accepted frame is applied to the
application state and may slide the anchor forward.  The model covers
either endpoint: both directions of both sides run the same discipline. -/

/-- Modelled from the spec: a sealed post-handshake frame of one
direction, reduced to its nonce counter and its decrypted payload. -/
structure SealedFrame where
  counter : Nat
  payload : String
  deriving Repr, DecidableEq

/-- Modelled from the spec: receive-side state of one direction of one
session — the window anchor, the counters already accepted at or above
the anchor, and the application state the frames mutate (the log of
applied frames, standing for the chat logs). -/
structure RecvState where
  recv_nonce_ceiling : Nat
  seen : List Nat
  log : List SealedFrame
  deriving Repr, DecidableEq

/-- Width of the sliding replay window (spec §4.2: 64 entries). -/
def window_size : Nat := 64

/-- New window anchor after accepting `counter`: slides forward just far
enough to keep the window at `window_size` entries. -/
def slide_anchor (ceiling counter : Nat) : Nat :=
  if ceiling + window_size ≤ counter then counter + 1 - window_size else ceiling

/-- Modelled from the spec: process one inbound sealed frame.  A counter
below the anchor or already seen is dropped as a replay with no state
change; otherwise the frame is accepted, its payload appended to the
log, the counter recorded, and the anchor slid.  Returns the new state
and whether the frame was accepted. -/
def recv_frame (s : RecvState) (f : SealedFrame) : RecvState × Bool :=
  if f.counter < s.recv_nonce_ceiling then (s, false)
  else if f.counter ∈ s.seen then (s, false)
  else
    ({ recv_nonce_ceiling := slide_anchor s.recv_nonce_ceiling f.counter,
       seen := (f.counter :: s.seen).filter
         (fun c => slide_anchor s.recv_nonce_ceiling f.counter ≤ c),
       log := s.log ++ [f] }, true)

/-- Process a list of inbound frames in order. -/
def recv_all : RecvState → List SealedFrame → RecvState
  | s, [] => s
  | s, f :: rest => recv_all (recv_frame s f).1 rest

/-- Receive-side invariant: every applied frame's counter is below the
anchor or still recorded as seen, and no two applied frames share a
counter.  It holds for the fresh post-handshake state `⟨0, [], []⟩`. -/
def GoodRecv (s : RecvState) : Prop :=
  (∀ f ∈ s.log, f.counter < s.recv_nonce_ceiling ∨ f.counter ∈ s.seen) ∧
  (s.log.map SealedFrame.counter).Nodup

/-! ## Error taxonomy (modelled from the spec §7)

The Rust error types of `chatroom-core` are not in the snapshot.  Per §7
all errors outside the wire/crypto class propagate to the caller as a
structured error with a short machine-readable kind string; the client
sources read that string in the error value's `msg` field and dispatch
on it byte-for-byte, which fixes four of the strings verbatim. -/

/-- Modelled from the spec: the taxonomy entries that may be delivered
to the caller of an operation.  The wire/crypto class (MalformedFrame,
AuthFailure, ReplayRejected, NonceExhausted) is handled locally by
dropping the frame and is deliberately absent from this type. -/
inductive AppErrorKind
  | requestTimeout
  | endpointClosed
  | transportError
  | userExists
  | userUnknown
  | credentialInvalid
  | notAuthenticated
  | alreadyAuthenticated
  | recipientUnknown
  | recipientOffline
  | emptyMessage
  | storeCorrupt
  | storeIoError
  deriving Repr, DecidableEq

/-- Modelled from the spec: the short machine-readable kind string each
taxonomy entry carries.  The four strings the client sources compare
against ("username or password are invalid", "user is already existed",
"user is offline", "user is not existed") are kept verbatim. -/
def kind_string : AppErrorKind → String
  | .requestTimeout => "request timeout"
  | .endpointClosed => "endpoint closed"
  | .transportError => "transport error"
  | .userExists => "user is already existed"
  | .userUnknown => "user is not existed"
  | .credentialInvalid => "username or password are invalid"
  | .notAuthenticated => "user is not login"
  | .alreadyAuthenticated => "user is already login"
  | .recipientUnknown => "recipient is not existed"
  | .recipientOffline => "user is offline"
  | .emptyMessage => "empty message"
  | .storeCorrupt => "store corrupt"
  | .storeIoError => "store io error"

/-- Recover the taxonomy entry from its kind string. -/
def parse_kind (s : String) : Option AppErrorKind :=
  if s = "request timeout" then some .requestTimeout
  else if s = "endpoint closed" then some .endpointClosed
  else if s = "transport error" then some .transportError
  else if s = "user is already existed" then some .userExists
  else if s = "user is not existed" then some .userUnknown
  else if s = "username or password are invalid" then some .credentialInvalid
  else if s = "user is not login" then some .notAuthenticated
  else if s = "user is already login" then some .alreadyAuthenticated
  else if s = "recipient is not existed" then some .recipientUnknown
  else if s = "user is offline" then some .recipientOffline
  else if s = "empty message" then some .emptyMessage
  else if s = "store corrupt" then some .storeCorrupt
  else if s = "store io error" then some .storeIoError
  else none

/-- Modelled from the spec: the structured error value delivered to the
caller; the client sources read its `msg` field. -/
structure AppError where
  msg : String
  deriving Repr, DecidableEq

/-- Wrap a taxonomy entry as the delivered structured error. -/
def mk_error (k : AppErrorKind) : AppError :=
  ⟨kind_string k⟩

/-- Cryptography-related terms a delivered kind string must not expose. -/
def crypto_terms : List String :=
  ["key", "nonce", "cipher", "crypto", "seal", "salt", "hash", "mac", "replay"]

/-- All taxonomy entries, listed for finite checks. -/
def all_kinds : List AppErrorKind :=
  [.requestTimeout, .endpointClosed, .transportError, .userExists,
   .userUnknown, .credentialInvalid, .notAuthenticated,
   .alreadyAuthenticated, .recipientUnknown, .recipientOffline,
   .emptyMessage, .storeCorrupt, .storeIoError]

/-- Whether `p` occurs at the head of the second list. -/
def starts_with : List Char → List Char → Bool
  | [], _ => true
  | _ :: _, [] => false
  | c :: cs, d :: ds => c == d && starts_with cs ds

/-- Whether `p` occurs contiguously anywhere in the second list. -/
def contains_seq (p : List Char) : List Char → Bool
  | [] => starts_with p []
  | c :: cs => starts_with p (c :: cs) || contains_seq p cs

/-- UI actions of the client error handlers (LoginPage.tsx,
unnamed/part_003 RegisterPage, ChangePassModal.tsx, ChatPage.tsx). -/
inductive UiAction
  | set_field_error (field : String) (text : String)
  | console_log
  | clear_history
  deriving Repr, DecidableEq

/-- LoginPage.tsx submit error path: dispatch on the structured error's
`msg` field; the credential-invalid kind marks both form fields, any
other error goes to the console. -/
def login_error_dispatch (msg : Option String) : List UiAction :=
  match msg with
  | some m =>
    if m = "username or password are invalid" then
      [UiAction.set_field_error "username" "用户名或密码不正确",
       UiAction.set_field_error "password" "用户名或密码不正确"]
    else [UiAction.console_log]
  | none => [UiAction.console_log]

/-- RegisterPage (unnamed/part_003) submit error path. -/
def register_error_dispatch (msg : Option String) : List UiAction :=
  match msg with
  | some m =>
    if m = "user is already existed" then
      [UiAction.set_field_error "username" "用户名已被占用"]
    else [UiAction.console_log]
  | none => [UiAction.console_log]

/-- ChangePassModal.tsx submit error path. -/
def change_pass_error_dispatch (msg : Option String) : List UiAction :=
  match msg with
  | some m =>
    if m = "username or password are invalid" then
      [UiAction.set_field_error "old_password" "密码不正确"]
    else [UiAction.console_log]
  | none => [UiAction.console_log]

/-- ChatPage.tsx `get_chat_history` error path: an unknown-user error
clears the shown history, anything else goes to the console. -/
def get_chats_error_dispatch (msg : Option String) : List UiAction :=
  match msg with
  | some m =>
    if m = "user is not existed" then [UiAction.clear_history]
    else [UiAction.console_log]
  | none => [UiAction.console_log]

/-! ## User store (modelled from the spec §4.6) -/

/-- Modelled from the spec: a persisted credential record.  The hash and
salt blobs are opaque strings; the hash primitive itself is a black box
(spec §1, §6) and is passed in as a function. -/
structure UserRecord where
  pwd_hash : String
  pwd_salt : String
  deriving Repr, DecidableEq

/-- Modelled from the spec: the in-memory user store, a mapping from
username to credential record. -/
structure UserStore where
  users : List (String × UserRecord)
  deriving Repr, DecidableEq

/-- Record stored under username `u`, if any. -/
def store_get : List (String × UserRecord) → String → Option UserRecord
  | [], _ => none
  | (k, v) :: rest, u => if k = u then some v else store_get rest u

/-- Replace the record under an existing username, append a new one. -/
def store_set : List (String × UserRecord) → String → UserRecord →
    List (String × UserRecord)
  | [], u, r => [(u, r)]
  | (k, v) :: rest, u, r =>
    if k = u then (u, r) :: rest else (k, v) :: store_set rest u r

/-- Modelled from the spec §4.6: `verify(u, pwd)` returns the
credential-invalid error when the user is absent or hashing `pwd` with
the stored salt mismatches the stored hash. -/
def verify (hashF : String → String → String) (st : UserStore)
    (u pwd : String) : Except AppError Unit :=
  match store_get st.users u with
  | none => Except.error (mk_error .credentialInvalid)
  | some r =>
    if hashF pwd r.pwd_salt = r.pwd_hash then Except.ok ()
    else Except.error (mk_error .credentialInvalid)

/-- Modelled from the spec §4.6: `register(u, pwd)` fails with the
user-exists error when `u` is present, otherwise hashes `pwd` with a
fresh salt and inserts. -/
def user_register (hashF : String → String → String) (st : UserStore)
    (u pwd salt : String) : Except AppError UserStore :=
  match store_get st.users u with
  | some _ => Except.error (mk_error .userExists)
  | none => Except.ok { users := store_set st.users u ⟨hashF pwd salt, salt⟩ }

/-- Modelled from the spec §4.6: `change_password(u, old, new)` requires
`verify(u, old)` to succeed and fails with the credential-invalid error
otherwise; on success the record is rehashed with a fresh salt. -/
def change_password (hashF : String → String → String) (st : UserStore)
    (u old new_pwd salt : String) : Except AppError UserStore :=
  match verify hashF st u old with
  | Except.error e => Except.error e
  | Except.ok _ => Except.ok { users := store_set st.users u ⟨hashF new_pwd salt, salt⟩ }

/-- Store the caller keeps after a `change_password` call: the new store
on success, the prior store untouched on failure. -/
def apply_change (hashF : String → String → String) (st : UserStore)
    (u old new_pwd salt : String) : UserStore :=
  match change_password hashF st u old new_pwd salt with
  | Except.ok st' => st'
  | Except.error _ => st

/-! ## Chatroom state (modelled from the spec §4.7) -/

/-- Modelled from the spec: the chatroom fan-out state — registered
usernames, usernames holding an authenticated session, and the private
logs keyed by (owner, other participant). -/
structure ChatroomState where
  registered : List String
  online : List String
  priv_logs : List ((String × String) × List ChatData)
  deriving Repr, DecidableEq

/-- Log stored under key `k` (empty when absent). -/
def log_get : List ((String × String) × List ChatData) → String × String →
    List ChatData
  | [], _ => []
  | (k', v) :: rest, k => if k' = k then v else log_get rest k

/-- Append one entry to the log under key `k`. -/
def log_append : List ((String × String) × List ChatData) → String × String →
    ChatData → List ((String × String) × List ChatData)
  | [], k, e => [(k, [e])]
  | (k', v) :: rest, k, e =>
    if k' = k then (k', v ++ [e]) :: rest else (k', v) :: log_append rest k e

/-- Modelled from the spec §4.7: `post_private(from, to, text, now)`
fails with the recipient-unknown error when `to` is not registered, with
the recipient-offline error when `to` is registered but holds no
authenticated session, and otherwise appends the entry to both
participants' per-other logs. -/
def post_private (st : ChatroomState) (sender rcpt text now : String) :
    Except AppError ChatroomState :=
  let e : ChatData := ⟨now, sender, ChatEntryKind.message text⟩
  if rcpt ∈ st.registered then
    if rcpt ∈ st.online then
      Except.ok { st with
        priv_logs := log_append (log_append st.priv_logs (sender, rcpt) e) (rcpt, sender) e }
    else Except.error (mk_error .recipientOffline)
  else Except.error (mk_error .recipientUnknown)

/-! ## Session registry (modelled from the spec §4.5)

Sessions are keyed by peer address (modelled as a `Nat`); a session is
authenticated exactly when its `username` field is set. -/

/-- Modelled from the spec §3: one server-side session. -/
structure Session where
  addr : Nat
  username : Option String
  last_heartbeat : Nat
  deriving Repr, DecidableEq

/-- Modelled from the spec: the registry's session table. -/
structure Registry where
  sessions : List Session
  deriving Repr, DecidableEq

/-- Session at peer address `a`, if any. -/
def find_session : List Session → Nat → Option Session
  | [], _ => none
  | s :: rest, a => if s.addr = a then some s else find_session rest a

/-- Usernames of the authenticated sessions. -/
def auth_users (r : Registry) : List String :=
  r.sessions.filterMap Session.username

/-- Registry invariant: one session per peer address, and at most one
authenticated session per username (spec §8 invariant 3). -/
def GoodRegistry (r : Registry) : Prop :=
  (r.sessions.map Session.addr).Nodup ∧ (auth_users r).Nodup

/-- Presence events the registry emits to observers. -/
inductive PresenceEvent
  | online_ev (u : String)
  | offline_ev (u : String)
  deriving Repr, DecidableEq

/-- Modelled from the spec §4.5: `upsert_unauth` registers a fresh
unauthenticated session for a never-seen peer address. -/
def upsert_unauth (r : Registry) (a now : Nat) : Registry :=
  match find_session r.sessions a with
  | some _ => r
  | none => { sessions := r.sessions ++ [⟨a, none, now⟩] }

/-- Modelled from the spec §4.5: `authenticate` succeeds only when the
credentials match, the peer has a session and that session is not yet
authenticated; it atomically evicts (destroys) any prior session of the
username — emitting Offline for the evictee and then Online for the new
peer — and marks the peer's session authenticated. -/
def authenticate (r : Registry) (a : Nat) (u : String) (cred_ok : Bool) :
    Registry × List PresenceEvent × Except AppError Unit :=
  if cred_ok then
    match find_session r.sessions a with
    | none => (r, [], Except.error (mk_error .notAuthenticated))
    | some s =>
      match s.username with
      | some _ => (r, [], Except.error (mk_error .alreadyAuthenticated))
      | none =>
        (⟨⟨a, some u, s.last_heartbeat⟩ ::
            ((r.sessions.filter (fun t => t.username != some u)).filter
              (fun t => t.addr != a))⟩,
         if r.sessions.any (fun t => t.username == some u) then
           [PresenceEvent.offline_ev u, PresenceEvent.online_ev u]
         else [PresenceEvent.online_ev u],
         Except.ok ())
  else (r, [], Except.error (mk_error .credentialInvalid))

/-- Modelled from the spec §4.5: `touch` resets the session's
`last_heartbeat` to now. -/
def touch (r : Registry) (a now : Nat) : Registry :=
  ⟨r.sessions.map (fun t => if t.addr = a then { t with last_heartbeat := now } else t)⟩

/-- Modelled from the spec §3: explicit logout destroys the session. -/
def logout (r : Registry) (a : Nat) : Registry :=
  ⟨r.sessions.filter (fun t => t.addr != a)⟩

/-- Modelled from the spec §4.5: `reap(now)` removes the sessions whose
`last_heartbeat` is older than the heartbeat interval `h`. -/
def reap (r : Registry) (now h : Nat) : Registry :=
  ⟨r.sessions.filter (fun t => !(decide (t.last_heartbeat + h < now)))⟩

/-- One registry operation. -/
inductive RegOp
  | op_upsert (a now : Nat)
  | op_auth (a : Nat) (u : String) (cred_ok : Bool)
  | op_touch (a now : Nat)
  | op_logout (a : Nat)
  | op_reap (now h : Nat)

/-- Apply one registry operation. -/
def reg_step (r : Registry) : RegOp → Registry
  | .op_upsert a now => upsert_unauth r a now
  | .op_auth a u cred_ok => (authenticate r a u cred_ok).1
  | .op_touch a now => touch r a now
  | .op_logout a => logout r a
  | .op_reap now h => reap r now h

/-- Modelled from the spec: serving a request on the session at peer
address `a`; a destroyed or unauthenticated session is refused with the
not-authenticated error. -/
def handle_request (r : Registry) (a : Nat) : Except AppError Unit :=
  match find_session r.sessions a with
  | none => Except.error (mk_error .notAuthenticated)
  | some s =>
    match s.username with
    | none => Except.error (mk_error .notAuthenticated)
    | some _ => Except.ok ()

/-! ## Heartbeat liveness (modelled from the spec §4.10, §5)

Discrete-time simulation of one server-side session: at each instant the
server first touches the session if an inbound authenticated frame
arrived (`sends`), then — at every reaper run, one run each `q` instants
with `q = heartbeat_interval / 4` — reaps it when `last_heartbeat` is
older than the heartbeat interval `h`. -/

/-- Liveness state of one session: last touch time and whether the
session is still in the registry. -/
structure LiveState where
  last_heartbeat : Nat
  alive : Bool
  deriving Repr, DecidableEq

/-- Modelled from the spec §4.10: the server touches the live session
when an inbound authenticated frame arrives at instant `t`. -/
def hb_touch (sends : Nat → Bool) (t : Nat) (s : LiveState) : LiveState :=
  if s.alive && sends t then { s with last_heartbeat := t } else s

/-- Modelled from the spec §4.5/§5: at each reaper run (once every `q`
instants) the session is reaped when its `last_heartbeat` is older than
the heartbeat interval `h`. -/
def hb_kill (h q t : Nat) (s : LiveState) : LiveState :=
  if s.alive && (t % q == 0) && decide (s.last_heartbeat + h < t) then
    { s with alive := false }
  else s

/-- Modelled from the spec: one instant of the heartbeat protocol —
receive then reap. -/
def hb_step (h q : Nat) (sends : Nat → Bool) (t : Nat) (s : LiveState) :
    LiveState :=
  hb_kill h q t (hb_touch sends t s)

/-- Run the heartbeat protocol through instant `t`, starting from the
handshake at instant 0. -/
def hb_run (h q : Nat) (sends : Nat → Bool) : Nat → LiveState
  | 0 => hb_step h q sends 0 ⟨0, true⟩
  | t + 1 => hb_step h q sends (t + 1) (hb_run h q sends t)

/-- State entering instant `t`: the handshake state at instant 0, the
previous instant's state afterwards. -/
def hb_prev (h q : Nat) (sends : Nat → Bool) : Nat → LiveState
  | 0 => ⟨0, true⟩
  | t + 1 => hb_run h q sends t

/-! ## Theorems for the client-side claims -/

/-- Lookup after in-place update: `mapSet` stores the given value. -/
theorem mapGet_mapSet_self (m : List (String × RosterUser)) (k : String)
    (v : RosterUser) : mapGet (mapSet m k v) k = some v := by
  induction m with
  | nil => simp [mapSet, mapGet]
  | cons hd tl ih =>
    obtain ⟨k', v'⟩ := hd
    by_cases h : k' = k
    · simp [mapSet, mapGet, h]
    · simp [mapSet, mapGet, h, ih]

/-- Claim C8: invoking `say` while the message consists only of
whitespace characters (the empty string included) performs no backend
send, fetches nothing, and leaves the whole client state — chat history,
roster, display lists, unread counters and the message input box —
unchanged. -/
theorem say_blank_is_noop (st : ClientState) (res : SayResult)
    (fetched : List ChatData) (h : is_blank st.message = true) :
    (say st res fetched).1 = st ∧
    ∀ e ∈ (say st res fetched).2,
      (∀ r m, e ≠ Effect.backend_say r m) ∧ (∀ c, e ≠ Effect.fetch_history c) := by
  unfold say
  rw [if_pos h]
  refine ⟨rfl, ?_⟩
  intro e he
  simp only [List.mem_singleton] at he
  subst he
  exact ⟨(fun r m hrm => nomatch hrm), (fun c hc => nomatch hc)⟩

/-- Witness for `say_blank_is_noop` at a concrete state whose message is
a single space. -/
theorem say_blank_is_noop_witness :
    (say ⟨[], [], [], [], 0, none, " "⟩ SayResult.ok []).1 =
        (⟨[], [], [], [], 0, none, " "⟩ : ClientState) ∧
    ∀ e ∈ (say ⟨[], [], [], [], 0, none, " "⟩ SayResult.ok []).2,
      (∀ r m, e ≠ Effect.backend_say r m) ∧ (∀ c, e ≠ Effect.fetch_history c) :=
  say_blank_is_noop ⟨[], [], [], [], 0, none, " "⟩ SayResult.ok [] (by decide)

/-- Claim C9: an online or offline event naming a user absent from the
roster inserts that user with `is_online = true` and `new_msg_count = 0`
whichever event arrived, while the display-list placement follows the
event kind (online event appends to the online list, offline event to
the offline list). -/
theorem set_online_state_unknown_user (name : String) (b : Bool)
    (st : ClientState) (h : mapGet st.users name = none) :
    mapGet (set_online_state name b st).users name = some ⟨name, true, 0⟩ ∧
    (b = true →
      (set_online_state name b st).online_list =
          st.online_list.filter (fun n => n != name) ++ [name] ∧
      (set_online_state name b st).offline_list =
          st.offline_list.filter (fun n => n != name)) ∧
    (b = false →
      (set_online_state name b st).offline_list =
          st.offline_list.filter (fun n => n != name) ++ [name] ∧
      (set_online_state name b st).online_list =
          st.online_list.filter (fun n => n != name)) := by
  unfold set_online_state
  rw [h]
  refine ⟨?_, ?_, ?_⟩
  · cases b <;> simp [move_user_online, move_user_offline, mapGet_mapSet_self]
  · intro hb
    subst hb
    simp [move_user_online]
  · intro hb
    subst hb
    simp [move_user_offline]

/-- Witness for `set_online_state_unknown_user`: an offline event for a
user missing from an empty roster still records `is_online = true`. -/
theorem set_online_state_unknown_user_witness :
    mapGet (set_online_state "alice" false ⟨[], ["bob"], [], [], 0, none, ""⟩).users
        "alice" = some ⟨"alice", true, 0⟩ ∧
    ((false : Bool) = true →
      (set_online_state "alice" false ⟨[], ["bob"], [], [], 0, none, ""⟩).online_list =
          (["bob"] : List String).filter (fun n => n != "alice") ++ ["alice"] ∧
      (set_online_state "alice" false ⟨[], ["bob"], [], [], 0, none, ""⟩).offline_list =
          ([] : List String).filter (fun n => n != "alice")) ∧
    ((false : Bool) = false →
      (set_online_state "alice" false ⟨[], ["bob"], [], [], 0, none, ""⟩).offline_list =
          ([] : List String).filter (fun n => n != "alice") ++ ["alice"] ∧
      (set_online_state "alice" false ⟨[], ["bob"], [], [], 0, none, ""⟩).online_list =
          (["bob"] : List String).filter (fun n => n != "alice")) :=
  set_online_state_unknown_user "alice" false
    ⟨[], ["bob"], [], [], 0, none, ""⟩ (by decide)

/-- Claim C10: a new-msg event whose payload names a roster user
different from the selected chat increments that user's unread counter,
removes the user from the offline display list and puts the user at the
head of the online display list, whatever the recorded `is_online` flag;
a null payload (public chat) different from the selected chat only
increments the public unread counter. -/
theorem on_new_msg_updates (payload : Option String) (fetched : List ChatData)
    (st : ClientState) (hne : payload ≠ st.current_chat) :
    (∀ P u, payload = some P → mapGet st.users P = some u →
      on_new_msg payload fetched st =
        bump_user_online P
          { st with users := mapSet st.users P { u with new_msg_count := u.new_msg_count + 1 } } ∧
      mapGet (on_new_msg payload fetched st).users P =
        some { u with new_msg_count := u.new_msg_count + 1 } ∧
      (on_new_msg payload fetched st).online_list =
        P :: st.online_list.filter (fun n => n != P) ∧
      (on_new_msg payload fetched st).offline_list =
        st.offline_list.filter (fun n => n != P)) ∧
    (payload = none →
      on_new_msg payload fetched st =
        { st with public_chat_count := st.public_chat_count + 1 }) := by
  constructor
  · intro P u hP hu
    subst hP
    have hdef : on_new_msg (some P) fetched st =
        bump_user_online P
          { st with users := mapSet st.users P { u with new_msg_count := u.new_msg_count + 1 } } := by
      unfold on_new_msg
      rw [if_neg hne]
      simp [hu]
    refine ⟨hdef, ?_, ?_, ?_⟩
    · rw [hdef]
      simpa [bump_user_online] using mapGet_mapSet_self st.users P
        { u with new_msg_count := u.new_msg_count + 1 }
    · rw [hdef]; rfl
    · rw [hdef]; rfl
  · intro hP
    subst hP
    unfold on_new_msg
    rw [if_neg hne]

/-- Witness for `on_new_msg_updates`: a message from "bob" (recorded
offline) while the public chat is selected. -/
theorem on_new_msg_updates_witness :
    (∀ P u, (some "bob" : Option String) = some P →
      mapGet [("bob", ⟨"bob", false, 3⟩)] P = some u →
      on_new_msg (some "bob") []
          ⟨[("bob", ⟨"bob", false, 3⟩)], [], ["bob"], [], 0, none, ""⟩ =
        bump_user_online P
          { (⟨[("bob", ⟨"bob", false, 3⟩)], [], ["bob"], [], 0, none, ""⟩ : ClientState) with
            users := mapSet [("bob", ⟨"bob", false, 3⟩)] P
              { u with new_msg_count := u.new_msg_count + 1 } } ∧
      mapGet (on_new_msg (some "bob") []
          ⟨[("bob", ⟨"bob", false, 3⟩)], [], ["bob"], [], 0, none, ""⟩).users P =
        some { u with new_msg_count := u.new_msg_count + 1 } ∧
      (on_new_msg (some "bob") []
          ⟨[("bob", ⟨"bob", false, 3⟩)], [], ["bob"], [], 0, none, ""⟩).online_list =
        P :: ([] : List String).filter (fun n => n != P) ∧
      (on_new_msg (some "bob") []
          ⟨[("bob", ⟨"bob", false, 3⟩)], [], ["bob"], [], 0, none, ""⟩).offline_list =
        (["bob"] : List String).filter (fun n => n != P)) ∧
    ((some "bob" : Option String) = none →
      on_new_msg (some "bob") []
          ⟨[("bob", ⟨"bob", false, 3⟩)], [], ["bob"], [], 0, none, ""⟩ =
        { (⟨[("bob", ⟨"bob", false, 3⟩)], [], ["bob"], [], 0, none, ""⟩ : ClientState) with
          public_chat_count := 0 + 1 }) :=
  on_new_msg_updates (some "bob") []
    ⟨[("bob", ⟨"bob", false, 3⟩)], [], ["bob"], [], 0, none, ""⟩ (by decide)

/-- Claim C7 (evaluation at the failing input): with both fields empty
the shell sends `serverAddr = "0.0.0.0:0"` as specified, but it sends the
JavaScript string "60000" — not the integer 60000 — as the heartbeat
interval, while a non-empty heartbeat field is parsed to an integer; the
two branches of the same argument thus disagree in type. -/
theorem start_server_settings_empty_fields :
    (start_server_settings "" "").serverAddr = "0.0.0.0:0" ∧
    (start_server_settings "" "").heartbeatInterval = JSVal.str "60000" ∧
    JSVal.str "60000" ≠ JSVal.num 60000 ∧
    (start_server_settings "1.2.3.4:400" "500").serverAddr = "1.2.3.4:400" ∧
    (start_server_settings "1.2.3.4:400" "500").heartbeatInterval = JSVal.num 500 := by
  refine ⟨rfl, rfl, by decide, rfl, ?_⟩
  decide

theorem slide_anchor_le (c n : Nat) : c ≤ slide_anchor c n := by
  unfold slide_anchor window_size
  split <;> omega

theorem slide_anchor_le_counter (c n : Nat) (h : c ≤ n) : slide_anchor c n ≤ n := by
  unfold slide_anchor window_size
  split <;> omega

theorem recv_frame_ceiling_mono (s : RecvState) (f : SealedFrame) :
    s.recv_nonce_ceiling ≤ (recv_frame s f).1.recv_nonce_ceiling := by
  by_cases h1 : f.counter < s.recv_nonce_ceiling
  · simp [recv_frame, h1]
  · by_cases h2 : f.counter ∈ s.seen
    · simp [recv_frame, h1, h2]
    · simp only [recv_frame, h1, h2, if_false]
      exact slide_anchor_le _ _

theorem recv_frame_good (s : RecvState) (f : SealedFrame) (hg : GoodRecv s) :
    GoodRecv (recv_frame s f).1 := by
  by_cases h1 : f.counter < s.recv_nonce_ceiling
  · simpa [recv_frame, h1] using hg
  · by_cases h2 : f.counter ∈ s.seen
    · simpa [recv_frame, h1, h2] using hg
    · have hcle : s.recv_nonce_ceiling ≤ f.counter := by omega
      constructor
      · intro g hgmem
        simp only [recv_frame, h1, h2, if_false] at hgmem ⊢
        rcases List.mem_append.mp hgmem with hin | hin
        · rcases hg.1 g hin with hc | hc
          · exact Or.inl (lt_of_lt_of_le hc (slide_anchor_le _ _))
          · by_cases hA : slide_anchor s.recv_nonce_ceiling f.counter ≤ g.counter
            · refine Or.inr (List.mem_filter.mpr ⟨List.mem_cons_of_mem _ hc, ?_⟩)
              simpa using hA
            · exact Or.inl (by omega)
        · have hgf : g = f := by simpa using hin
          subst hgf
          refine Or.inr (List.mem_filter.mpr ⟨List.mem_cons_self _ _, ?_⟩)
          simpa using slide_anchor_le_counter _ _ hcle
      · simp only [recv_frame, h1, h2, if_false, List.map_append, List.map_cons,
          List.map_nil]
        have hnot : f.counter ∉ s.log.map SealedFrame.counter := by
          intro hmem
          rcases List.mem_map.mp hmem with ⟨g, hgin, hgc⟩
          rcases hg.1 g hgin with hc | hc
          · omega
          · exact h2 (hgc ▸ hc)
        simp [List.nodup_append, hg.2, hnot]

theorem recv_frame_replay_drop (s : RecvState) (f : SealedFrame)
    (hg : GoodRecv s) (hf : f ∈ s.log) : recv_frame s f = (s, false) := by
  rcases hg.1 f hf with h | h
  · simp [recv_frame, h]
  · by_cases h1 : f.counter < s.recv_nonce_ceiling
    · simp [recv_frame, h1]
    · simp [recv_frame, h1, h]

theorem recv_frame_log_mem (s : RecvState) (g f : SealedFrame)
    (h : g ∈ s.log) : g ∈ (recv_frame s f).1.log := by
  by_cases h1 : f.counter < s.recv_nonce_ceiling
  · simpa [recv_frame, h1]
  · by_cases h2 : f.counter ∈ s.seen
    · simpa [recv_frame, h1, h2]
    · simp only [recv_frame, h1, h2, if_false]
      exact List.mem_append.mpr (Or.inl h)

theorem recv_frame_accept_mem (s : RecvState) (f : SealedFrame)
    (h : (recv_frame s f).2 = true) : f ∈ (recv_frame s f).1.log := by
  by_cases h1 : f.counter < s.recv_nonce_ceiling
  · simp [recv_frame, h1] at h
  · by_cases h2 : f.counter ∈ s.seen
    · simp [recv_frame, h1, h2] at h
    · simp [recv_frame, h1, h2]

theorem recv_all_good (s : RecvState) (fs : List SealedFrame)
    (hg : GoodRecv s) : GoodRecv (recv_all s fs) := by
  induction fs generalizing s with
  | nil => simpa [recv_all]
  | cons f rest ih => exact ih _ (recv_frame_good s f hg)

theorem recv_all_log_mem (s : RecvState) (g : SealedFrame)
    (fs : List SealedFrame) (h : g ∈ s.log) : g ∈ (recv_all s fs).log := by
  induction fs generalizing s with
  | nil => simpa [recv_all]
  | cons f rest ih => exact ih _ (recv_frame_log_mem s g f h)

/-- In a log whose counters are pairwise distinct, a frame that occurs
occurs exactly once. -/
theorem count_one_of_nodup_counters (l : List SealedFrame) (f : SealedFrame)
    (hn : (l.map SealedFrame.counter).Nodup) (hf : f ∈ l) : l.count f = 1 := by
  induction l with
  | nil => cases hf
  | cons g rest ih =>
    simp only [List.map_cons, List.nodup_cons] at hn
    rcases List.mem_cons.mp hf with h | h
    · subst h
      rw [List.count_cons_self]
      have hout : f ∉ rest := fun hmem => hn.1 (List.mem_map.mpr ⟨f, hmem, rfl⟩)
      rw [List.count_eq_zero.mpr hout]
    · have hne : f ≠ g := by
        intro he
        subst he
        exact hn.1 (List.mem_map.mpr ⟨f, h, rfl⟩)
      rw [List.count_cons_of_ne hne]
      exact ih hn.2 h

/-- Claim C1: starting from any state satisfying the receive invariant
(as the fresh post-handshake state does), the window anchor
`recv_nonce_ceiling` never decreases, a counter strictly below it is
dropped as a replay with no state change, and once a sealed frame has
been accepted, replaying that frame verbatim after any further traffic
is dropped without mutating any state, the log keeping exactly one copy
of the message. -/
theorem replay_rejection (s : RecvState) (f : SealedFrame)
    (fs : List SealedFrame) (hg : GoodRecv s) :
    s.recv_nonce_ceiling ≤ (recv_frame s f).1.recv_nonce_ceiling ∧
    (f.counter < s.recv_nonce_ceiling → recv_frame s f = (s, false)) ∧
    ((recv_frame s f).2 = true →
      recv_frame (recv_all (recv_frame s f).1 fs) f =
        (recv_all (recv_frame s f).1 fs, false) ∧
      (recv_all (recv_frame s f).1 fs).log.count f = 1) := by
  refine ⟨recv_frame_ceiling_mono s f, ?_, ?_⟩
  · intro h
    simp [recv_frame, h]
  · intro hacc
    have hg1 : GoodRecv (recv_frame s f).1 := recv_frame_good s f hg
    have hg2 : GoodRecv (recv_all (recv_frame s f).1 fs) := recv_all_good _ fs hg1
    have hmem : f ∈ (recv_all (recv_frame s f).1 fs).log :=
      recv_all_log_mem _ f fs (recv_frame_accept_mem s f hacc)
    exact ⟨recv_frame_replay_drop _ f hg2 hmem,
      count_one_of_nodup_counters _ f hg2.2 hmem⟩

/-- Witness for `replay_rejection`: the fresh state, a first sealed
frame with counter 0, and no intervening traffic. -/
theorem replay_rejection_witness :
    (⟨0, [], []⟩ : RecvState).recv_nonce_ceiling ≤
        (recv_frame ⟨0, [], []⟩ ⟨0, "hi"⟩).1.recv_nonce_ceiling ∧
    ((⟨0, "hi"⟩ : SealedFrame).counter < (⟨0, [], []⟩ : RecvState).recv_nonce_ceiling →
      recv_frame ⟨0, [], []⟩ ⟨0, "hi"⟩ = (⟨0, [], []⟩, false)) ∧
    ((recv_frame ⟨0, [], []⟩ ⟨0, "hi"⟩).2 = true →
      recv_frame (recv_all (recv_frame ⟨0, [], []⟩ ⟨0, "hi"⟩).1 [])
          ⟨0, "hi"⟩ =
        (recv_all (recv_frame ⟨0, [], []⟩ ⟨0, "hi"⟩).1 [], false) ∧
      (recv_all (recv_frame ⟨0, [], []⟩ ⟨0, "hi"⟩).1 []).log.count ⟨0, "hi"⟩ = 1) :=
  replay_rejection ⟨0, [], []⟩ ⟨0, "hi"⟩ [] ⟨by simp, by simp⟩

/-- A `verify` call either succeeds or delivers exactly the
credential-invalid structured error. -/
theorem verify_cases (hashF : String → String → String) (st : UserStore)
    (u pwd : String) :
    verify hashF st u pwd = Except.ok () ∨
    verify hashF st u pwd = Except.error (mk_error .credentialInvalid) := by
  rcases hsg : store_get st.users u with _ | r
  · simp [verify, hsg]
  · by_cases h : hashF pwd r.pwd_salt = r.pwd_hash
    · simp [verify, hsg, h]
    · simp [verify, hsg, h]

/-- Claim C4: `change_password(u, old, new)` succeeds exactly when
`verify(u, old)` succeeds; otherwise it returns the credential-invalid
structured error and the caller's store — in particular the user's
record — is left unchanged. -/
theorem change_password_iff_verify (hashF : String → String → String)
    (st : UserStore) (u old new_pwd salt : String) :
    ((∃ st', change_password hashF st u old new_pwd salt = Except.ok st') ↔
      verify hashF st u old = Except.ok ()) ∧
    (verify hashF st u old ≠ Except.ok () →
      change_password hashF st u old new_pwd salt =
        Except.error (mk_error .credentialInvalid) ∧
      apply_change hashF st u old new_pwd salt = st) := by
  rcases verify_cases hashF st u old with hv | hv
  · have hcp : change_password hashF st u old new_pwd salt =
        Except.ok ⟨store_set st.users u ⟨hashF new_pwd salt, salt⟩⟩ := by
      simp [change_password, hv]
    exact ⟨⟨fun _ => hv, fun _ => ⟨_, hcp⟩⟩, fun hne => absurd hv hne⟩
  · have hcp : change_password hashF st u old new_pwd salt =
        Except.error (mk_error .credentialInvalid) := by
      simp [change_password, hv]
    refine ⟨⟨?_, ?_⟩, fun _ => ⟨hcp, by simp [apply_change, hcp]⟩⟩
    · rintro ⟨st', hok⟩
      rw [hcp] at hok
      exact Except.noConfusion hok
    · intro h
      rw [h] at hv
      exact Except.noConfusion hv

/-- Witness for `change_password_iff_verify`: a store holding one user
whose credentials do not match the supplied old password. -/
theorem change_password_iff_verify_witness :
    ((∃ st', change_password (fun p s => String.append s p)
        ⟨[("alice", ⟨"Xpw1", "X"⟩)]⟩ "alice" "wrong" "new1" "Y" = Except.ok st') ↔
      verify (fun p s => String.append s p) ⟨[("alice", ⟨"Xpw1", "X"⟩)]⟩
        "alice" "wrong" = Except.ok ()) ∧
    (verify (fun p s => String.append s p) ⟨[("alice", ⟨"Xpw1", "X"⟩)]⟩
        "alice" "wrong" ≠ Except.ok () →
      change_password (fun p s => String.append s p) ⟨[("alice", ⟨"Xpw1", "X"⟩)]⟩
          "alice" "wrong" "new1" "Y" =
        Except.error (mk_error .credentialInvalid) ∧
      apply_change (fun p s => String.append s p) ⟨[("alice", ⟨"Xpw1", "X"⟩)]⟩
          "alice" "wrong" "new1" "Y" = ⟨[("alice", ⟨"Xpw1", "X"⟩)]⟩) :=
  change_password_iff_verify (fun p s => String.append s p)
    ⟨[("alice", ⟨"Xpw1", "X"⟩)]⟩ "alice" "wrong" "new1" "Y"

/-- Appending under a key extends exactly that key's log. -/
theorem log_get_append_self (l : List ((String × String) × List ChatData))
    (k : String × String) (e : ChatData) :
    log_get (log_append l k e) k = log_get l k ++ [e] := by
  induction l with
  | nil => simp [log_append, log_get]
  | cons hd tl ih =>
    obtain ⟨k', v⟩ := hd
    by_cases h : k' = k
    · simp [log_append, log_get, h]
    · simp [log_append, log_get, h, ih]

/-- Appending under a key leaves every other key's log unchanged. -/
theorem log_get_append_other (l : List ((String × String) × List ChatData))
    (k k' : String × String) (e : ChatData) (hne : k' ≠ k) :
    log_get (log_append l k e) k' = log_get l k' := by
  induction l with
  | nil => simp [log_append, log_get, Ne.symm hne]
  | cons hd tl ih =>
    obtain ⟨k0, v⟩ := hd
    by_cases h : k0 = k
    · subst h
      simp [log_append, log_get, Ne.symm hne]
    · simp [log_append, log_get, h, ih]

/-- Claim C5: `post_private` fails with the recipient-unknown error when
the recipient is not registered, fails with the recipient-offline error
when the recipient is registered but holds no authenticated session, and
only otherwise appends the message to both participants' logs. -/
theorem post_private_semantics (st : ChatroomState)
    (sender rcpt text now : String) :
    (rcpt ∉ st.registered →
      post_private st sender rcpt text now =
        Except.error (mk_error .recipientUnknown)) ∧
    (rcpt ∈ st.registered → rcpt ∉ st.online →
      post_private st sender rcpt text now =
        Except.error (mk_error .recipientOffline)) ∧
    (rcpt ∈ st.registered → rcpt ∈ st.online → sender ≠ rcpt →
      ∃ st', post_private st sender rcpt text now = Except.ok st' ∧
        st'.registered = st.registered ∧ st'.online = st.online ∧
        log_get st'.priv_logs (sender, rcpt) =
          log_get st.priv_logs (sender, rcpt) ++ [⟨now, sender, .message text⟩] ∧
        log_get st'.priv_logs (rcpt, sender) =
          log_get st.priv_logs (rcpt, sender) ++ [⟨now, sender, .message text⟩]) := by
  refine ⟨?_, ?_, ?_⟩
  · intro h
    simp [post_private, h]
  · intro h1 h2
    simp [post_private, h1, h2]
  · intro h1 h2 hne
    have hk1 : ((rcpt, sender) : String × String) ≠ (sender, rcpt) := by
      intro he
      rw [Prod.ext_iff] at he
      exact hne he.1.symm
    have hk2 : ((sender, rcpt) : String × String) ≠ (rcpt, sender) := by
      intro he
      rw [Prod.ext_iff] at he
      exact hne he.1
    refine ⟨⟨st.registered, st.online,
        log_append (log_append st.priv_logs (sender, rcpt) ⟨now, sender, .message text⟩)
          (rcpt, sender) ⟨now, sender, .message text⟩⟩, ?_, rfl, rfl, ?_, ?_⟩
    · simp [post_private, h1, h2]
    · rw [log_get_append_other _ _ _ _ hk2, log_get_append_self]
    · rw [log_get_append_self, log_get_append_other _ _ _ _ hk1]

/-- Witness for `post_private_semantics`: bob registered and online,
alice messaging bob. -/
theorem post_private_semantics_witness :
    (("bob" : String) ∉ (["bob"] : List String) →
      post_private ⟨["bob"], ["bob"], []⟩ "alice" "bob" "hi" "t0" =
        Except.error (mk_error .recipientUnknown)) ∧
    (("bob" : String) ∈ (["bob"] : List String) →
        ("bob" : String) ∉ (["bob"] : List String) →
      post_private ⟨["bob"], ["bob"], []⟩ "alice" "bob" "hi" "t0" =
        Except.error (mk_error .recipientOffline)) ∧
    (("bob" : String) ∈ (["bob"] : List String) →
        ("bob" : String) ∈ (["bob"] : List String) → ("alice" : String) ≠ "bob" →
      ∃ st', post_private ⟨["bob"], ["bob"], []⟩ "alice" "bob" "hi" "t0" =
          Except.ok st' ∧
        st'.registered = (⟨["bob"], ["bob"], []⟩ : ChatroomState).registered ∧
        st'.online = (⟨["bob"], ["bob"], []⟩ : ChatroomState).online ∧
        log_get st'.priv_logs ("alice", "bob") =
          log_get (⟨["bob"], ["bob"], []⟩ : ChatroomState).priv_logs ("alice", "bob") ++
            [⟨"t0", "alice", .message "hi"⟩] ∧
        log_get st'.priv_logs ("bob", "alice") =
          log_get (⟨["bob"], ["bob"], []⟩ : ChatroomState).priv_logs ("bob", "alice") ++
            [⟨"t0", "alice", .message "hi"⟩]) :=
  post_private_semantics ⟨["bob"], ["bob"], []⟩ "alice" "bob" "hi" "t0"

/-- Round trip: the kind string of each taxonomy entry parses back to
exactly that entry. -/
theorem parse_kind_round (k : AppErrorKind) :
    parse_kind (kind_string k) = some k := by
  cases k <;> decide

/-- Claim C6: a failure outside the wire/crypto class is delivered to
the caller as a structured value carrying a short machine-readable kind
string that identifies the taxonomy entry — the kind-to-string map is
injective and explicitly invertible, every kind string is short and
contains no cryptographic term, every error the modelled operations
return is such a structured value, and the client handlers dispatch on
the string alone. -/
theorem structured_error_kinds (hashF : String → String → String)
    (ust : UserStore) (cst : ChatroomState)
    (u old new_pwd pwd salt sender rcpt text now : String) :
    Function.Injective kind_string ∧
    (∀ k, k ∈ all_kinds) ∧
    (all_kinds.all (fun k => decide ((kind_string k).length ≤ 40))) = true ∧
    (crypto_terms.all (fun w =>
      all_kinds.all (fun k => !(contains_seq w.data (kind_string k).data)))) = true ∧
    (∀ e, user_register hashF ust u pwd salt = Except.error e →
      ∃ k, e = mk_error k) ∧
    (∀ e, verify hashF ust u pwd = Except.error e → ∃ k, e = mk_error k) ∧
    (∀ e, change_password hashF ust u old new_pwd salt = Except.error e →
      ∃ k, e = mk_error k) ∧
    (∀ e, post_private cst sender rcpt text now = Except.error e →
      ∃ k, e = mk_error k) ∧
    login_error_dispatch (some (kind_string .credentialInvalid)) =
      [UiAction.set_field_error "username" "用户名或密码不正确",
       UiAction.set_field_error "password" "用户名或密码不正确"] ∧
    register_error_dispatch (some (kind_string .userExists)) =
      [UiAction.set_field_error "username" "用户名已被占用"] ∧
    change_pass_error_dispatch (some (kind_string .credentialInvalid)) =
      [UiAction.set_field_error "old_password" "密码不正确"] ∧
    get_chats_error_dispatch (some (kind_string .userUnknown)) =
      [UiAction.clear_history] := by
  refine ⟨?_, ?_, by decide, by decide, ?_, ?_, ?_, ?_,
    by decide, by decide, by decide, by decide⟩
  · intro a b h
    have ha := parse_kind_round a
    rw [h, parse_kind_round b] at ha
    exact (Option.some.inj ha).symm
  · intro k
    cases k <;> simp [all_kinds]
  · intro e he
    rcases hsg : store_get ust.users u with _ | r
    · simp [user_register, hsg] at he
    · simp [user_register, hsg] at he
      exact ⟨.userExists, he.symm⟩
  · intro e he
    rcases verify_cases hashF ust u pwd with hv | hv
    · rw [hv] at he
      exact Except.noConfusion he
    · rw [hv] at he
      exact ⟨.credentialInvalid, (Except.error.inj he).symm⟩
  · intro e he
    rcases verify_cases hashF ust u old with hv | hv
    · simp [change_password, hv] at he
    · simp [change_password, hv] at he
      exact ⟨.credentialInvalid, he.symm⟩
  · intro e he
    by_cases hr : rcpt ∈ cst.registered
    · by_cases ho : rcpt ∈ cst.online
      · simp [post_private, hr, ho] at he
      · simp [post_private, hr, ho] at he
        exact ⟨.recipientOffline, he.symm⟩
    · simp [post_private, hr] at he
      exact ⟨.recipientUnknown, he.symm⟩

/-- Witness for `structured_error_kinds` at concrete inputs. -/
theorem structured_error_kinds_witness :
    Function.Injective kind_string ∧
    (∀ k, k ∈ all_kinds) ∧
    (all_kinds.all (fun k => decide ((kind_string k).length ≤ 40))) = true ∧
    (crypto_terms.all (fun w =>
      all_kinds.all (fun k => !(contains_seq w.data (kind_string k).data)))) = true ∧
    (∀ e, user_register (fun p _ => p) ⟨[]⟩ "a" "b" "c" = Except.error e →
      ∃ k, e = mk_error k) ∧
    (∀ e, verify (fun p _ => p) ⟨[]⟩ "a" "b" = Except.error e →
      ∃ k, e = mk_error k) ∧
    (∀ e, change_password (fun p _ => p) ⟨[]⟩ "a" "b" "c" "c" = Except.error e →
      ∃ k, e = mk_error k) ∧
    (∀ e, post_private ⟨[], [], []⟩ "a" "b" "c" "d" = Except.error e →
      ∃ k, e = mk_error k) ∧
    login_error_dispatch (some (kind_string .credentialInvalid)) =
      [UiAction.set_field_error "username" "用户名或密码不正确",
       UiAction.set_field_error "password" "用户名或密码不正确"] ∧
    register_error_dispatch (some (kind_string .userExists)) =
      [UiAction.set_field_error "username" "用户名已被占用"] ∧
    change_pass_error_dispatch (some (kind_string .credentialInvalid)) =
      [UiAction.set_field_error "old_password" "密码不正确"] ∧
    get_chats_error_dispatch (some (kind_string .userUnknown)) =
      [UiAction.clear_history] :=
  structured_error_kinds (fun p _ => p) ⟨[]⟩ ⟨[], [], []⟩
    "a" "b" "c" "b" "c" "a" "b" "c" "d"

/-- No session is found exactly when no session has the address. -/
theorem find_session_eq_none (l : List Session) (a : Nat) :
    find_session l a = none ↔ ∀ t ∈ l, t.addr ≠ a := by
  induction l with
  | nil => simp [find_session]
  | cons s rest ih =>
    by_cases h : s.addr = a
    · simp [find_session, h]
    · simp [find_session, h, ih]

/-- A found session is a member and sits at the queried address. -/
theorem find_session_some (l : List Session) (a : Nat) (s : Session)
    (h : find_session l a = some s) : s ∈ l ∧ s.addr = a := by
  induction l with
  | nil => simp [find_session] at h
  | cons x rest ih =>
    by_cases hx : x.addr = a
    · simp [find_session, hx] at h
      subst h
      exact ⟨List.mem_cons_self _ _, hx⟩
    · simp only [find_session, hx, if_false] at h
      exact ⟨List.mem_cons_of_mem _ (ih h).1, (ih h).2⟩

/-- With pairwise distinct addresses, a member is the unique session at
its address. -/
theorem session_unique (l : List Session)
    (hn : (l.map Session.addr).Nodup) (x t : Session)
    (hx : x ∈ l) (ht : t ∈ l) (he : x.addr = t.addr) : x = t :=
  List.inj_on_of_nodup_map hn hx ht he

/-- `touch` does not change the address column. -/
theorem touch_map_addr (l : List Session) (a now : Nat) :
    ((l.map (fun t => if t.addr = a then { t with last_heartbeat := now } else t)).map
        Session.addr) = l.map Session.addr := by
  induction l with
  | nil => rfl
  | cons t tl ih =>
    by_cases h : t.addr = a <;> simp [h, ih]

/-- `touch` does not change the authenticated-username column. -/
theorem touch_auth_users (l : List Session) (a now : Nat) :
    ((l.map (fun t => if t.addr = a then { t with last_heartbeat := now } else t)).filterMap
        Session.username) = l.filterMap Session.username := by
  induction l with
  | nil => rfl
  | cons t tl ih =>
    by_cases h : t.addr = a
    · cases htu : t.username <;> simp [List.filterMap_cons, h, htu, ih]
    · cases htu : t.username <;> simp [List.filterMap_cons, h, htu, ih]

/-- Any filtering of the session table keeps the registry invariant. -/
theorem good_filter (r : Registry) (p : Session → Bool) (hg : GoodRegistry r) :
    GoodRegistry ⟨r.sessions.filter p⟩ := by
  refine ⟨?_, ?_⟩
  · exact List.Nodup.sublist (List.Sublist.map _ (List.filter_sublist _)) hg.1
  · exact List.Nodup.sublist (List.Sublist.filterMap _ (List.filter_sublist _)) hg.2

/-- `upsert_unauth` keeps the registry invariant. -/
theorem good_upsert (r : Registry) (a now : Nat) (hg : GoodRegistry r) :
    GoodRegistry (upsert_unauth r a now) := by
  rcases hfs : find_session r.sessions a with _ | s
  · have hnotin : ∀ t ∈ r.sessions, t.addr ≠ a := (find_session_eq_none _ _).mp hfs
    have hres : upsert_unauth r a now = ⟨r.sessions ++ [(⟨a, none, now⟩ : Session)]⟩ := by
      simp [upsert_unauth, hfs]
    rw [hres]
    refine ⟨?_, ?_⟩
    · show ((r.sessions ++ [(⟨a, none, now⟩ : Session)]).map Session.addr).Nodup
      rw [List.map_append]
      refine List.nodup_append.mpr ⟨hg.1, List.nodup_singleton a, ?_⟩
      intro x hx hx2
      rcases List.mem_map.mp hx with ⟨t, htl, hta⟩
      rcases List.mem_singleton.mp hx2 with rfl
      exact hnotin t htl hta
    · show ((r.sessions ++ [(⟨a, none, now⟩ : Session)]).filterMap Session.username).Nodup
      rw [List.filterMap_append]
      simpa using hg.2
  · simpa [upsert_unauth, hfs] using hg

/-- `touch` keeps the registry invariant. -/
theorem good_touch (r : Registry) (a now : Nat) (hg : GoodRegistry r) :
    GoodRegistry (touch r a now) := by
  refine ⟨?_, ?_⟩
  · show ((r.sessions.map
        (fun t => if t.addr = a then { t with last_heartbeat := now } else t)).map
        Session.addr).Nodup
    rw [touch_map_addr]
    exact hg.1
  · show ((r.sessions.map
        (fun t => if t.addr = a then { t with last_heartbeat := now } else t)).filterMap
        Session.username).Nodup
    rw [touch_auth_users]
    exact hg.2

/-- `authenticate` keeps the registry invariant. -/
theorem good_authenticate (r : Registry) (a : Nat) (u : String) (c : Bool)
    (hg : GoodRegistry r) : GoodRegistry (authenticate r a u c).1 := by
  cases c with
  | false => simpa [authenticate] using hg
  | true =>
    rcases hfs : find_session r.sessions a with _ | s
    · simpa [authenticate, hfs] using hg
    · rcases hsu : s.username with _ | v
      · have hres : (authenticate r a u true).1 =
            ⟨⟨a, some u, s.last_heartbeat⟩ ::
              ((r.sessions.filter (fun t => t.username != some u)).filter
                (fun t => t.addr != a))⟩ := by
          simp [authenticate, hfs, hsu]
        have hl2 : List.Sublist
            ((r.sessions.filter (fun t => t.username != some u)).filter
              (fun t => t.addr != a)) r.sessions :=
          (List.filter_sublist _).trans (List.filter_sublist _)
        rw [hres]
        refine ⟨List.nodup_cons.mpr ⟨?_, ?_⟩, List.nodup_cons.mpr ⟨?_, ?_⟩⟩
        · intro hmem
          rcases List.mem_map.mp hmem with ⟨t, htl2, hta⟩
          have ht := (List.mem_filter.mp htl2).2
          simp only [bne_iff_ne, ne_eq, decide_eq_true_eq] at ht
          exact ht hta
        · exact List.Nodup.sublist (List.Sublist.map _ hl2) hg.1
        · intro hmem
          rcases List.mem_filterMap.mp hmem with ⟨t, htl2, htu⟩
          have ht := (List.mem_filter.mp (List.mem_filter.mp htl2).1).2
          simp only [bne_iff_ne, ne_eq, decide_eq_true_eq] at ht
          exact ht htu
        · exact List.Nodup.sublist (List.Sublist.filterMap _ hl2) hg.2
      · simpa [authenticate, hfs, hsu] using hg

/-- A successful `authenticate` call implies matching credentials and an
existing, not yet authenticated session at the address. -/
theorem auth_ok_shape (r : Registry) (a : Nat) (u : String) (c : Bool)
    (h : (authenticate r a u c).2.2 = Except.ok ()) :
    c = true ∧ ∃ s, find_session r.sessions a = some s ∧ s.username = none := by
  cases c with
  | false => simp [authenticate] at h
  | true =>
    rcases hfs : find_session r.sessions a with _ | s
    · simp [authenticate, hfs] at h
    · rcases hsu : s.username with _ | v
      · exact ⟨rfl, ⟨s, rfl, hsu⟩⟩
      · simp [authenticate, hfs, hsu] at h

/-- Claim C2: at most one authenticated session per username exists at
any instant (the registry invariant holds initially and is preserved by
every operation); a successful login atomically evicts any prior session
of the username, emitting Offline for the evictee and then Online for
the new peer (just Online when there was none); and a request on the
evicted session's address afterwards is refused with the
not-authenticated error. -/
theorem single_session_per_username (r : Registry) (a : Nat) (u : String)
    (c : Bool) (hg : GoodRegistry r) :
    GoodRegistry (⟨[]⟩ : Registry) ∧
    (∀ op, GoodRegistry (reg_step r op)) ∧
    ((authenticate r a u c).2.2 = Except.ok () →
      (r.sessions.any (fun t => t.username == some u) = true →
        (authenticate r a u c).2.1 =
          [PresenceEvent.offline_ev u, PresenceEvent.online_ev u]) ∧
      (r.sessions.any (fun t => t.username == some u) = false →
        (authenticate r a u c).2.1 = [PresenceEvent.online_ev u]) ∧
      (∀ t ∈ r.sessions, t.username = some u →
        handle_request (authenticate r a u c).1 t.addr =
          Except.error (mk_error .notAuthenticated))) := by
  refine ⟨⟨List.nodup_nil, List.nodup_nil⟩, ?_, ?_⟩
  · intro op
    cases op with
    | op_upsert a' now => exact good_upsert r a' now hg
    | op_auth a' u' c' => exact good_authenticate r a' u' c' hg
    | op_touch a' now => exact good_touch r a' now hg
    | op_logout a' => exact good_filter r _ hg
    | op_reap now h => exact good_filter r _ hg
  · intro hok
    obtain ⟨hc, s, hfs, hsu⟩ := auth_ok_shape r a u c hok
    subst hc
    have hs := find_session_some r.sessions a s hfs
    refine ⟨?_, ?_, ?_⟩
    · intro hany
      simp [authenticate, hfs, hsu, hany]
    · intro hany
      simp [authenticate, hfs, hsu, hany]
    · intro t htmem htu
      have hne : t.addr ≠ a := by
        intro he
        have hts : t = s := session_unique r.sessions hg.1 t s htmem hs.1
          (by rw [he, hs.2])
        rw [hts, hsu] at htu
        exact Option.noConfusion htu
      have hres : (authenticate r a u true).1 =
          ⟨⟨a, some u, s.last_heartbeat⟩ ::
            ((r.sessions.filter (fun t' => t'.username != some u)).filter
              (fun t' => t'.addr != a))⟩ := by
        simp [authenticate, hfs, hsu]
      have hnone : find_session
          (r.sessions.filter (fun t' => t'.addr != a && t'.username != some u))
          t.addr = none := by
        rw [find_session_eq_none]
        intro x hx he
        have hx1 := List.mem_filter.mp hx
        have hx2 := hx1.2
        rw [Bool.and_eq_true] at hx2
        have hxt : x = t := session_unique r.sessions hg.1 x t hx1.1 htmem he
        have hxu := hx2.2
        rw [hxt] at hxu
        simp [htu] at hxu
      rw [hres]
      simp [handle_request, find_session, Ne.symm hne, hnone]

/-- Witness for `single_session_per_username`: alice logged in at
address 1, a fresh unauthenticated session at address 2 logging in as
alice with matching credentials. -/
theorem single_session_per_username_witness :
    GoodRegistry (⟨[]⟩ : Registry) ∧
    (∀ op, GoodRegistry
      (reg_step ⟨[⟨1, some "alice", 0⟩, ⟨2, none, 0⟩]⟩ op)) ∧
    ((authenticate ⟨[⟨1, some "alice", 0⟩, ⟨2, none, 0⟩]⟩ 2 "alice" true).2.2 =
        Except.ok () →
      (([⟨1, some "alice", 0⟩, ⟨2, none, 0⟩] : List Session).any
          (fun t => t.username == some "alice") = true →
        (authenticate ⟨[⟨1, some "alice", 0⟩, ⟨2, none, 0⟩]⟩ 2 "alice" true).2.1 =
          [PresenceEvent.offline_ev "alice", PresenceEvent.online_ev "alice"]) ∧
      (([⟨1, some "alice", 0⟩, ⟨2, none, 0⟩] : List Session).any
          (fun t => t.username == some "alice") = false →
        (authenticate ⟨[⟨1, some "alice", 0⟩, ⟨2, none, 0⟩]⟩ 2 "alice" true).2.1 =
          [PresenceEvent.online_ev "alice"]) ∧
      (∀ t ∈ ([⟨1, some "alice", 0⟩, ⟨2, none, 0⟩] : List Session),
          t.username = some "alice" →
        handle_request
            (authenticate ⟨[⟨1, some "alice", 0⟩, ⟨2, none, 0⟩]⟩ 2 "alice" true).1
            t.addr =
          Except.error (mk_error .notAuthenticated))) :=
  single_session_per_username ⟨[⟨1, some "alice", 0⟩, ⟨2, none, 0⟩]⟩ 2 "alice"
    true ⟨by decide, by decide⟩

/-- One instant is: receive, then reap, applied to the entering state. -/
theorem hb_run_eq (h q : Nat) (sends : Nat → Bool) (t : Nat) :
    hb_run h q sends t = hb_kill h q t (hb_touch sends t (hb_prev h q sends t)) := by
  cases t <;> rfl

/-- Reaping never changes `last_heartbeat`. -/
theorem hb_kill_lh (h q t : Nat) (s : LiveState) :
    (hb_kill h q t s).last_heartbeat = s.last_heartbeat := by
  unfold hb_kill
  split <;> rfl

/-- Touching never changes liveness. -/
theorem hb_touch_alive (sends : Nat → Bool) (t : Nat) (s : LiveState) :
    (hb_touch sends t s).alive = s.alive := by
  unfold hb_touch
  split <;> rfl

/-- Touching keeps `last_heartbeat` or sets it to the current instant. -/
theorem hb_touch_lh (sends : Nat → Bool) (t : Nat) (s : LiveState) :
    (hb_touch sends t s).last_heartbeat = s.last_heartbeat ∨
    (hb_touch sends t s).last_heartbeat = t := by
  unfold hb_touch
  split
  · exact Or.inr rfl
  · exact Or.inl rfl

/-- A dead session stays dead and unchanged. -/
theorem hb_step_dead (h q : Nat) (sends : Nat → Bool) (t : Nat) (s : LiveState)
    (hd : s.alive = false) : hb_step h q sends t s = s := by
  unfold hb_step hb_touch hb_kill
  simp [hd]

/-- The recorded heartbeat never lies in the future. -/
theorem hb_lh_le (h q : Nat) (sends : Nat → Bool) (t : Nat) :
    (hb_run h q sends t).last_heartbeat ≤ t := by
  induction t with
  | zero =>
    rw [hb_run_eq, hb_kill_lh]
    rcases hb_touch_lh sends 0 (hb_prev h q sends 0) with hk | hk <;> rw [hk] <;> simp [hb_prev]
  | succ n ih =>
    rw [hb_run_eq, hb_kill_lh]
    rcases hb_touch_lh sends (n + 1) (hb_prev h q sends (n + 1)) with hk | hk <;> rw [hk]
    show (hb_run h q sends n).last_heartbeat ≤ n + 1
    omega

/-- Liveness at a later instant implies liveness at any earlier one. -/
theorem hb_alive_le (h q : Nat) (sends : Nat → Bool) (t t' : Nat) (hle : t ≤ t')
    (ha : (hb_run h q sends t').alive = true) :
    (hb_run h q sends t).alive = true := by
  induction t' with
  | zero =>
    have ht : t = 0 := by omega
    rw [ht]
    exact ha
  | succ n ih =>
    rcases Nat.lt_or_ge t (n + 1) with hlt | hge
    · refine ih (by omega) ?_
      cases hx : (hb_run h q sends n).alive
      · have heq : hb_run h q sends (n + 1) = hb_run h q sends n := hb_step_dead h q sends (n + 1) _ hx
        rw [heq, hx] at ha
        exact ha
      · rfl
    · have ht : t = n + 1 := by omega
      rw [ht]
      exact ha

/-- `last_heartbeat` is monotone along the run. -/
theorem hb_lh_mono (h q : Nat) (sends : Nat → Bool) (t1 t2 : Nat) (hle : t1 ≤ t2) :
    (hb_run h q sends t1).last_heartbeat ≤ (hb_run h q sends t2).last_heartbeat := by
  induction t2 with
  | zero =>
    have ht : t1 = 0 := by omega
    rw [ht]
  | succ n ih =>
    rcases Nat.lt_or_ge t1 (n + 1) with hlt | hge
    · refine le_trans (ih (by omega)) ?_
      rw [hb_run_eq h q sends (n + 1), hb_kill_lh]
      rcases hb_touch_lh sends (n + 1) (hb_prev h q sends (n + 1)) with hk | hk <;> rw [hk]
      · exact le_refl _
      · exact le_trans (hb_lh_le h q sends n) (by omega)
    · have ht : t1 = n + 1 := by omega
      rw [ht]

/-- Once the client goes silent after instant `T`, the recorded
heartbeat never exceeds `T`. -/
theorem hb_lh_stop (h q T : Nat) (sends : Nat → Bool)
    (hstop : ∀ v, T < v → sends v = false) (t : Nat) :
    (hb_run h q sends t).last_heartbeat ≤ T := by
  induction t with
  | zero => exact le_trans (hb_lh_le h q sends 0) (Nat.zero_le T)
  | succ n ih =>
    by_cases hn : n + 1 ≤ T
    · exact le_trans (hb_lh_le h q sends (n + 1)) hn
    · have hsend : sends (n + 1) = false := hstop (n + 1) (by omega)
      rw [hb_run_eq, hb_kill_lh]
      unfold hb_touch
      rw [hsend]
      simpa [hb_prev] using ih

/-- Claim C3: under the modelled heartbeat protocol — the server touches
the session on any inbound frame, the reaper runs once every
`heartbeat_interval / 4` instants and reaps sessions whose
`last_heartbeat` is older than `heartbeat_interval` — a client that
stops sending after instant `T` is reaped by instant
`T + 2 × heartbeat_interval`, while a client that always sent a frame
within the last `heartbeat_interval / 2` instants is never reaped. -/
theorem heartbeat_reap_bound (h T N : Nat) (sends1 sends2 : Nat → Bool)
    (hh : 4 ≤ h)
    (hstop : ∀ v, T < v → sends1 v = false)
    (hreg : ∀ t, t ≤ N → ∃ v, v ≤ t ∧ sends2 v = true ∧ t ≤ v + h / 2) :
    (hb_run h (h / 4) sends1 (T + 2 * h)).alive = false ∧
    (∀ t, t ≤ N → (hb_run h (h / 4) sends2 t).alive = true) := by
  have hq0 : 0 < h / 4 := Nat.div_pos hh (by norm_num)
  have hqh : h / 4 ≤ h := Nat.div_le_self h 4
  constructor
  · -- Part 1: silence for 2·h guarantees the reap.
    have hdm := Nat.div_add_mod (T + h) (h / 4)
    have hm : (T + h) % (h / 4) < h / 4 := Nat.mod_lt _ hq0
    have hexp : h / 4 * ((T + h) / (h / 4) + 1) =
        h / 4 * ((T + h) / (h / 4)) + h / 4 := by ring
    have htlb : T + h < h / 4 * ((T + h) / (h / 4) + 1) := by omega
    have htub : h / 4 * ((T + h) / (h / 4) + 1) ≤ T + 2 * h := by omega
    obtain ⟨t0, ht0⟩ : ∃ t0, h / 4 * ((T + h) / (h / 4) + 1) = t0 + 1 :=
      ⟨h / 4 * ((T + h) / (h / 4) + 1) - 1, by omega⟩
    by_contra hcon
    have halive2h : (hb_run h (h / 4) sends1 (T + 2 * h)).alive = true := by
      cases hx : (hb_run h (h / 4) sends1 (T + 2 * h)).alive
      · exact absurd hx hcon
      · rfl
    have halive : (hb_run h (h / 4) sends1 (t0 + 1)).alive = true := by
      refine hb_alive_le h (h / 4) sends1 (t0 + 1) (T + 2 * h) (by omega) halive2h
    have hs1 : hb_touch sends1 (t0 + 1) (hb_run h (h / 4) sends1 t0) =
        hb_run h (h / 4) sends1 t0 := by
      simp [hb_touch, hstop (t0 + 1) (by omega)]
    have halive' : (hb_kill h (h / 4) (t0 + 1) (hb_run h (h / 4) sends1 t0)).alive
        = true := by
      have heq := hb_run_eq h (h / 4) sends1 (t0 + 1)
      rw [heq] at halive
      simpa [hb_prev, hs1] using halive
    have hlh : (hb_run h (h / 4) sends1 t0).last_heartbeat ≤ T :=
      hb_lh_stop h (h / 4) T sends1 hstop t0
    cases hal : (hb_run h (h / 4) sends1 t0).alive
    · rw [show hb_kill h (h / 4) (t0 + 1) (hb_run h (h / 4) sends1 t0) =
          hb_run h (h / 4) sends1 t0 by unfold hb_kill; simp [hal], hal] at halive'
      exact Bool.noConfusion halive'
    · have hmod : (t0 + 1) % (h / 4) = 0 := by
        rw [← ht0]
        exact Nat.mul_mod_right _ _
      have hlt : (hb_run h (h / 4) sends1 t0).last_heartbeat + h < t0 + 1 := by omega
      have hdead : (hb_kill h (h / 4) (t0 + 1) (hb_run h (h / 4) sends1 t0)).alive
          = false := by
        unfold hb_kill
        simp [hal, hmod, hlt]
      rw [hdead] at halive'
      exact Bool.noConfusion halive'
  · -- Part 2: a frame within every half-interval keeps the session alive.
    intro t
    induction t using Nat.strong_induction_on with
    | _ t ih =>
      intro htN
      obtain ⟨v, hvle, hvs, hvh⟩ := hreg t htN
      have hprev_alive : (hb_prev h (h / 4) sends2 t).alive = true := by
        cases t with
        | zero => rfl
        | succ t0 => exact ih t0 (by omega) (by omega)
      have hs1alive : (hb_touch sends2 t (hb_prev h (h / 4) sends2 t)).alive = true := by
        rw [hb_touch_alive]
        exact hprev_alive
      have hlh_ge : v ≤ (hb_touch sends2 t (hb_prev h (h / 4) sends2 t)).last_heartbeat := by
        rcases Nat.eq_or_lt_of_le hvle with heq | hlt
        · subst heq
          simp [hb_touch, hprev_alive, hvs]
        · obtain ⟨t0, rfl⟩ : ∃ t0, t = t0 + 1 := ⟨t - 1, by omega⟩
          have hva : (hb_prev h (h / 4) sends2 v).alive = true := by
            cases v with
            | zero => rfl
            | succ v0 => exact ih v0 (by omega) (by omega)
          have hlv : (hb_run h (h / 4) sends2 v).last_heartbeat = v := by
            rw [hb_run_eq, hb_kill_lh]
            simp [hb_touch, hva, hvs]
          have hmono := hb_lh_mono h (h / 4) sends2 v t0 (by omega)
          rw [hlv] at hmono
          rcases hb_touch_lh sends2 (t0 + 1) (hb_prev h (h / 4) sends2 (t0 + 1))
            with hk | hk <;> rw [hk]
          · exact hmono
          · omega
      have hhalf : h / 2 ≤ h := Nat.div_le_self h 2
      have hnk : ¬((hb_touch sends2 t (hb_prev h (h / 4) sends2 t)).last_heartbeat
          + h < t) := by omega
      rw [hb_run_eq]
      unfold hb_kill
      simp [hnk, hs1alive]

/-- Witness for `heartbeat_reap_bound`: interval 4 (reaper period 1), a
client silent from the start, and a client that sends every instant. -/
theorem heartbeat_reap_bound_witness :
    (hb_run 4 (4 / 4) (fun _ => false) (0 + 2 * 4)).alive = false ∧
    (∀ t, t ≤ 6 → (hb_run 4 (4 / 4) (fun _ => true) t).alive = true) :=
  heartbeat_reap_bound 4 0 6 (fun _ => false) (fun _ => true) (by norm_num)
    (fun _ _ => rfl) (fun t _ => ⟨t, Nat.le_refl t, rfl, by omega⟩)

end Chatroom
